import Mathlib

/-!
Shallow embedding of the core of `src/main.rs` (bevy3d):
the rounded-box mesh generator (`SoftBox` and its `From<SoftBox> for Mesh`
conversion), the ASCII-map lattice-point generator (`get_world_points`,
generalised over its hard-coded map and wall marker), and the random
direction selector (`_get_random_direction`).

`f32` scalars are modelled as rationals (the arithmetic used by the code is
only addition and subtraction of the inputs, which is exact), `i32` as `Int`,
`usize` as `Nat`, and `u32` mesh indices as `Nat`.  The fatal fallback of the
random-direction selector is modelled as `Option.none`.
-/

/-- Rust struct `PointI32 { x: i32, y: i32, z: i32 }`. -/
structure PointI32 where
  x : Int
  y : Int
  z : Int
deriving DecidableEq, Repr

/-- `PointI32::new` from the source. -/
def PointI32.new (x y z : Int) : PointI32 :=
  ⟨x, y, z⟩

/-- Rust struct `SoftBox` with its six extents and the edge (bevel) radius. -/
structure SoftBox where
  min_x : ℚ
  max_x : ℚ
  min_y : ℚ
  max_y : ℚ
  min_z : ℚ
  max_z : ℚ
  edge_radius : ℚ
deriving DecidableEq, Repr

/-- `SoftBox::new`: a box centered at the origin with the given side lengths. -/
def SoftBox.new (x_length y_length z_length edge_radius : ℚ) : SoftBox where
  max_x := x_length / 2
  min_x := -x_length / 2
  max_y := y_length / 2
  min_y := -y_length / 2
  max_z := z_length / 2
  min_z := -z_length / 2
  edge_radius := edge_radius

/-- A vertex record of the mesh: position, normal, uv. -/
abbrev Vertex : Type := (ℚ × ℚ × ℚ) × (ℚ × ℚ × ℚ) × (ℚ × ℚ)

/-- The literal 24-entry vertex table of `From<SoftBox> for Mesh`
(`src/main.rs` lines 145-176): six faces times four corners, each corner
inset by the edge radius along the face's two tangent axes, with a constant
per-face normal and per-face uv corners. -/
def softBoxVertices (sp : SoftBox) : List Vertex :=
  let r := sp.edge_radius
  [ -- Front
    ((sp.min_x + r, sp.min_y + r, sp.max_z), (0, 0, 1), (0, 0)),
    ((sp.max_x - r, sp.min_y + r, sp.max_z), (0, 0, 1), (1, 0)),
    ((sp.max_x - r, sp.max_y - r, sp.max_z), (0, 0, 1), (1, 1)),
    ((sp.min_x + r, sp.max_y - r, sp.max_z), (0, 0, 1), (0, 1)),
    -- Back
    ((sp.min_x + r, sp.max_y - r, sp.min_z), (0, 0, -1), (1, 0)),
    ((sp.max_x - r, sp.max_y - r, sp.min_z), (0, 0, -1), (0, 0)),
    ((sp.max_x - r, sp.min_y + r, sp.min_z), (0, 0, -1), (0, 1)),
    ((sp.min_x + r, sp.min_y + r, sp.min_z), (0, 0, -1), (1, 1)),
    -- Right
    ((sp.max_x, sp.min_y + r, sp.min_z + r), (1, 0, 0), (0, 0)),
    ((sp.max_x, sp.max_y - r, sp.min_z + r), (1, 0, 0), (1, 0)),
    ((sp.max_x, sp.max_y - r, sp.max_z - r), (1, 0, 0), (1, 1)),
    ((sp.max_x, sp.min_y + r, sp.max_z - r), (1, 0, 0), (0, 1)),
    -- Left
    ((sp.min_x, sp.min_y + r, sp.max_z - r), (-1, 0, 0), (1, 0)),
    ((sp.min_x, sp.max_y - r, sp.max_z - r), (-1, 0, 0), (0, 0)),
    ((sp.min_x, sp.max_y - r, sp.min_z + r), (-1, 0, 0), (0, 1)),
    ((sp.min_x, sp.min_y + r, sp.min_z + r), (-1, 0, 0), (1, 1)),
    -- Top
    ((sp.max_x - r, sp.max_y, sp.min_z + r), (0, 1, 0), (1, 0)),
    ((sp.min_x + r, sp.max_y, sp.min_z + r), (0, 1, 0), (0, 0)),
    ((sp.min_x + r, sp.max_y, sp.max_z - r), (0, 1, 0), (0, 1)),
    ((sp.max_x - r, sp.max_y, sp.max_z - r), (0, 1, 0), (1, 1)),
    -- Bottom
    ((sp.max_x - r, sp.min_y, sp.max_z - r), (0, -1, 0), (0, 0)),
    ((sp.min_x + r, sp.min_y, sp.max_z - r), (0, -1, 0), (1, 0)),
    ((sp.min_x + r, sp.min_y, sp.min_z + r), (0, -1, 0), (1, 1)),
    ((sp.max_x - r, sp.min_y, sp.min_z + r), (0, -1, 0), (0, 1)) ]

/-- The face part of the literal index list (6 faces of 2 triangles). -/
def faceIndices : List Nat :=
  [ 0, 1, 2, 2, 3, 0,
    4, 5, 6, 6, 7, 4,
    8, 9, 10, 10, 11, 8,
    12, 13, 14, 14, 15, 12,
    16, 17, 18, 18, 19, 16,
    20, 21, 22, 22, 23, 20 ]

/-- The edge-band part of the literal index list (12 edges of 2 triangles). -/
def edgeIndices : List Nat :=
  [ 0, 3, 13, 13, 12, 0,
    18, 17, 13, 14, 13, 17,
    4, 7, 14, 14, 7, 15,
    22, 21, 15, 12, 15, 21,
    2, 1, 10, 1, 11, 10,
    16, 19, 10, 10, 9, 16,
    6, 5, 9, 9, 8, 6,
    20, 23, 8, 8, 11, 20,
    19, 18, 2, 3, 2, 18,
    1, 0, 20, 21, 20, 0,
    23, 22, 7, 7, 6, 23,
    5, 4, 17, 17, 16, 5 ]

/-- The corner part of the literal index list (8 corner triangles). -/
def cornerIndices : List Nat :=
  [ 18, 13, 3,
    17, 4, 14,
    19, 2, 10,
    16, 9, 5,
    21, 0, 12,
    22, 15, 7,
    20, 11, 1,
    23, 6, 8 ]

/-- The full literal index list emitted by `From<SoftBox> for Mesh`
(`src/main.rs` lines 182-217): faces, then all edge bands, then corners. -/
def softBoxIndices : List Nat :=
  faceIndices ++ edgeIndices ++ cornerIndices

/-- The mesh aggregate: one vertex buffer plus one index list. -/
structure Mesh where
  vertices : List Vertex
  indices : List Nat
deriving Repr

/-- The `From<SoftBox> for Mesh` conversion. -/
def SoftBox.toMesh (sp : SoftBox) : Mesh :=
  { vertices := softBoxVertices sp, indices := softBoxIndices }

/-- Positions of the built vertex buffer, in order. -/
def softBoxPositions (sp : SoftBox) : List (ℚ × ℚ × ℚ) :=
  (softBoxVertices sp).map (fun v => v.1)

/-- Normals of the built vertex buffer, in order. -/
def softBoxNormals (sp : SoftBox) : List (ℚ × ℚ × ℚ) :=
  (softBoxVertices sp).map (fun v => v.2.1)

/-- One row of `get_world_points` (`src/main.rs` lines 241-251): iterate the
characters of the line with a column counter `x` incremented before use (so
the first character has `x = 1`); when the character equals the wall marker
push the wall point `(x, 0, z)` first, then unconditionally push the floor
point `(x, -1, z)`. -/
def emitRow (wall : Char) (z : Int) : Nat → List Char → List PointI32
  | _, [] => []
  | x, c :: cs =>
    (if c = wall then [PointI32.new (x + 1) 0 z] else []) ++
      PointI32.new (x + 1) (-1) z :: emitRow wall z (x + 1) cs

/-- The row loop of `get_world_points` (`src/main.rs` lines 238-253), with
the map and the wall marker abstracted as parameters: the row counter `z`
starts at 0 and increments per row. -/
def fromMapAux (wall : Char) : Nat → List String → List PointI32
  | _, [] => []
  | z, line :: rest => emitRow wall z 0 line.data ++ fromMapAux wall (z + 1) rest

/-- `get_world_points` generalised over its hard-coded map and wall marker
(the spec calls this `LatticeMapGenerator.from_map`). -/
def from_map (rows : List String) (wall : Char) : List PointI32 :=
  fromMapAux wall 0 rows

/-- The hard-coded ASCII map of `get_world_points` (`src/main.rs` 230-237). -/
def stringMap : List String :=
  [ "XXXXXXXXXXXXXX",
    "X  X         X",
    "X            X",
    "X  X         X",
    "X          X X",
    "X            X",
    "XXXXXXXXXXXXXX" ]

/-- `get_world_points` from the source: the hard-coded map with marker `X`. -/
def get_world_points : List PointI32 :=
  from_map stringMap 'X'

/-- The six unit axis directions returned by `_get_random_direction`. -/
def axisDirections : List PointI32 :=
  [ PointI32.new 1 0 0, PointI32.new (-1) 0 0,
    PointI32.new 0 1 0, PointI32.new 0 (-1) 0,
    PointI32.new 0 0 1, PointI32.new 0 0 (-1) ]

/-- `_get_random_direction` (`src/main.rs` lines 258-270), with the value
drawn from `gen_range(0..6)` passed as a parameter; the fatal fallback
branch is modelled as `none`. -/
def _get_random_direction (draw : Nat) : Option PointI32 :=
  match draw with
  | 0 => some (PointI32.new 1 0 0)
  | 1 => some (PointI32.new (-1) 0 0)
  | 2 => some (PointI32.new 0 1 0)
  | 3 => some (PointI32.new 0 (-1) 0)
  | 4 => some (PointI32.new 0 0 1)
  | 5 => some (PointI32.new 0 0 (-1))
  | _ => none

/-- Group an index list into consecutive triples (the triangles of a
triangle-list topology). -/
def triangleList : List Nat → List (Nat × Nat × Nat)
  | a :: b :: c :: rest => (a, b, c) :: triangleList rest
  | _ => []

/-- An undirected edge key: the unordered pair as (smaller, larger). -/
def edgeKey (a b : Nat) : Nat × Nat :=
  (min a b, max a b)

/-- The three undirected edges of a triangle. -/
def triangleEdges (t : Nat × Nat × Nat) : List (Nat × Nat) :=
  [edgeKey t.1 t.2.1, edgeKey t.2.1 t.2.2, edgeKey t.2.2 t.1]

/-- All undirected edge occurrences of an index list, one per triangle edge. -/
def allEdgeOccurrences (l : List Nat) : List (Nat × Nat) :=
  (triangleList l).flatMap triangleEdges

/-! ## Claim theorems: mesh counts and index-table invariants -/

/-- C1 (corrected): the conversion has no fidelity parameter; for every
`SoftBox` the built mesh's index count is exactly 132, decomposed as 36 face
indices, 72 edge-band indices and 24 corner indices. -/
theorem softBox_index_count (sp : SoftBox) :
    sp.toMesh.indices.length = 132 ∧
      faceIndices.length = 36 ∧ edgeIndices.length = 72 ∧ cornerIndices.length = 24 :=
  ⟨rfl, rfl, rfl, rfl⟩

set_option maxRecDepth 4000 in
/-- C1 counterexample: the built mesh's index count is 132, which is none of
the claimed values 36, 60 or 114, for the concrete box of side 3 and edge
radius 1/2. -/
theorem softBox_index_count_cex :
    (SoftBox.new 3 3 3 (1/2)).toMesh.indices.length = 132 ∧
      ¬((SoftBox.new 3 3 3 (1/2)).toMesh.indices.length = 36 ∨
        (SoftBox.new 3 3 3 (1/2)).toMesh.indices.length = 60 ∨
        (SoftBox.new 3 3 3 (1/2)).toMesh.indices.length = 114) := by
  decide

/-- C4 (confirmed): for every `SoftBox` the built vertex buffer has exactly
24 vertices. -/
theorem softBox_vertex_count (sp : SoftBox) : sp.toMesh.vertices.length = 24 :=
  rfl

set_option maxRecDepth 100000 in
/-- C6 (confirmed): in the full literal index table (faces, all 12 edge
bands, all 8 corner triangles), every undirected edge of a triangle occurs
in exactly two triangles: the fixed table is combinatorially watertight. -/
theorem softBox_watertight :
    List.Forall (fun e => (allEdgeOccurrences softBoxIndices).count e = 2)
      (allEdgeOccurrences softBoxIndices) := by
  decide

set_option maxRecDepth 10000 in
/-- C10 (confirmed): every index of the built mesh's index list is below 24,
and each consecutive index triple has three pairwise distinct entries. -/
theorem softBox_indices_valid (sp : SoftBox) :
    List.Forall (fun i => i < 24) sp.toMesh.indices ∧
      List.Forall (fun t => t.1 ≠ t.2.1 ∧ t.2.1 ≠ t.2.2 ∧ t.2.2 ≠ t.1)
        (triangleList sp.toMesh.indices) := by
  have h : sp.toMesh.indices = softBoxIndices := rfl
  rw [h]
  decide

/-- C9 (confirmed): for every draw below 6 the random-direction selector
returns one of the six unit axis directions; in particular the fatal
fallback (`none`) is unreachable under the contract of `gen_range(0..6)`. -/
theorem random_direction_total :
    ∀ draw : Nat, draw < 6 →
      _get_random_direction draw ≠ none ∧
        _get_random_direction draw ∈ axisDirections.map some := by
  decide

/-- Witness for C9 at the concrete draw 0. -/
theorem random_direction_total_witness :
    _get_random_direction 0 ≠ none ∧
      _get_random_direction 0 ∈ axisDirections.map some :=
  random_direction_total 0 (by decide)

/-- The six axis-aligned unit normals. -/
def axisNormals : List (ℚ × ℚ × ℚ) :=
  [(1, 0, 0), (-1, 0, 0), (0, 1, 0), (0, -1, 0), (0, 0, 1), (0, 0, -1)]

/-- C8 (confirmed): for every `SoftBox` the normal buffer is six groups of
four copies of the face's outward axis-aligned unit vector (front +z,
back -z, right +x, left -x, top +y, bottom -y), and every normal is one of
the six axis-aligned unit vectors. -/
theorem softBox_normals_axis (sp : SoftBox) :
    softBoxNormals sp =
      List.replicate 4 ((0 : ℚ), (0 : ℚ), (1 : ℚ)) ++ List.replicate 4 (0, 0, -1) ++
        List.replicate 4 (1, 0, 0) ++ List.replicate 4 (-1, 0, 0) ++
        List.replicate 4 (0, 1, 0) ++ List.replicate 4 (0, -1, 0) ∧
      List.Forall (fun n => n ∈ axisNormals) (softBoxNormals sp) := by
  have h1 : softBoxNormals sp =
      List.replicate 4 ((0 : ℚ), (0 : ℚ), (1 : ℚ)) ++ List.replicate 4 (0, 0, -1) ++
        List.replicate 4 (1, 0, 0) ++ List.replicate 4 (-1, 0, 0) ++
        List.replicate 4 (0, 1, 0) ++ List.replicate 4 (0, -1, 0) := rfl
  refine ⟨h1, ?_⟩
  rw [h1]
  decide

/-- The two tangent x-coordinates of a face tangent to the x-axis: the box
extremes inset inward by the edge radius. -/
def insetX (sp : SoftBox) : List ℚ :=
  [sp.min_x + sp.edge_radius, sp.max_x - sp.edge_radius]

/-- The two tangent y-coordinates: the y extremes inset by the edge radius. -/
def insetY (sp : SoftBox) : List ℚ :=
  [sp.min_y + sp.edge_radius, sp.max_y - sp.edge_radius]

/-- The two tangent z-coordinates: the z extremes inset by the edge radius. -/
def insetZ (sp : SoftBox) : List ℚ :=
  [sp.min_z + sp.edge_radius, sp.max_z - sp.edge_radius]

/-- The `i`-th four-vertex face group of the built vertex buffer. -/
def faceGroup (sp : SoftBox) (i : Nat) : List Vertex :=
  ((softBoxVertices sp).drop (4 * i)).take 4

/-- C7 (confirmed): in each face group every position sits at the face's own
extreme on the face axis and at an edge-radius-inset coordinate on the two
tangent axes. -/
theorem softBox_face_inset (sp : SoftBox) :
    List.Forall (fun v : Vertex =>
      v.1.2.2 = sp.max_z ∧ v.1.1 ∈ insetX sp ∧ v.1.2.1 ∈ insetY sp) (faceGroup sp 0) ∧
    List.Forall (fun v : Vertex =>
      v.1.2.2 = sp.min_z ∧ v.1.1 ∈ insetX sp ∧ v.1.2.1 ∈ insetY sp) (faceGroup sp 1) ∧
    List.Forall (fun v : Vertex =>
      v.1.1 = sp.max_x ∧ v.1.2.1 ∈ insetY sp ∧ v.1.2.2 ∈ insetZ sp) (faceGroup sp 2) ∧
    List.Forall (fun v : Vertex =>
      v.1.1 = sp.min_x ∧ v.1.2.1 ∈ insetY sp ∧ v.1.2.2 ∈ insetZ sp) (faceGroup sp 3) ∧
    List.Forall (fun v : Vertex =>
      v.1.2.1 = sp.max_y ∧ v.1.1 ∈ insetX sp ∧ v.1.2.2 ∈ insetZ sp) (faceGroup sp 4) ∧
    List.Forall (fun v : Vertex =>
      v.1.2.1 = sp.min_y ∧ v.1.1 ∈ insetX sp ∧ v.1.2.2 ∈ insetZ sp) (faceGroup sp 5) := by
  simp [faceGroup, softBoxVertices, insetX, insetY, insetZ, List.Forall]

/-! ## Map generator: row-major normal form, ordering, cell contents -/

/-- The points of one cell: the wall point first when the character equals
the wall marker, then the floor point. -/
def cellPoints (wall : Char) (z : Int) (ic : Nat × Char) : List PointI32 :=
  (if ic.2 = wall then [PointI32.new ((ic.1 : Int) + 1) 0 z] else []) ++
    [PointI32.new ((ic.1 : Int) + 1) (-1) z]

/-- Row-major normal form of the map generator output: rows enumerated from
0 as z, characters enumerated from 0 with 1-based x, each cell contributing
its wall point (if any) and then its floor point. -/
def mapPointsRowMajor (rows : List String) (wall : Char) : List PointI32 :=
  rows.enum.flatMap (fun zl => zl.2.data.enum.flatMap (cellPoints wall (zl.1 : Int)))

lemma emitRow_eq_enumFrom (wall : Char) (z : Int) (cs : List Char) (x : Nat) :
    emitRow wall z x cs = (cs.enumFrom x).flatMap (cellPoints wall z) := by
  induction cs generalizing x with
  | nil => rfl
  | cons c cs ih =>
    simp [emitRow, List.enumFrom_cons, ih (x + 1), cellPoints]

lemma fromMapAux_eq_enumFrom (wall : Char) (rows : List String) (z : Nat) :
    fromMapAux wall z rows =
      (rows.enumFrom z).flatMap
        (fun zl => zl.2.data.enum.flatMap (cellPoints wall (zl.1 : Int))) := by
  induction rows generalizing z with
  | nil => rfl
  | cons r rest ih =>
    simp [fromMapAux, List.enumFrom_cons, ih (z + 1), emitRow_eq_enumFrom, List.enum]

lemma from_map_eq_rowMajor (rows : List String) (wall : Char) :
    from_map rows wall = mapPointsRowMajor rows wall := by
  simp [from_map, mapPointsRowMajor, fromMapAux_eq_enumFrom, List.enum]

/-- C2 (corrected): the map generator's output equals its row-major normal
form, in which each wall cell emits its wall point (y = 0) before its floor
point (y = -1); on the one-row map `"X "` with wall marker `X` it returns
exactly `[(1,0,0), (1,-1,0), (2,-1,0)]`. -/
theorem from_map_row_major (rows : List String) (wall : Char) :
    from_map rows wall = mapPointsRowMajor rows wall ∧
      from_map ["X "] 'X' =
        [PointI32.new 1 0 0, PointI32.new 1 (-1) 0, PointI32.new 2 (-1) 0] :=
  ⟨from_map_eq_rowMajor rows wall, by decide⟩

/-- C2 counterexample: on the map `["X "]` with wall marker `X`, the output
is `[(1,0,0), (1,-1,0), (2,-1,0)]` — the wall point precedes the floor
point — and differs from the claimed `[(1,-1,0), (1,0,0), (2,-1,0)]`. -/
theorem from_map_example_cex :
    from_map ["X "] 'X' =
        [PointI32.new 1 0 0, PointI32.new 1 (-1) 0, PointI32.new 2 (-1) 0] ∧
      from_map ["X "] 'X' ≠
        [PointI32.new 1 (-1) 0, PointI32.new 1 0 0, PointI32.new 2 (-1) 0] := by
  decide

lemma emitRow_length (wall : Char) (z : Int) (cs : List Char) (x : Nat) :
    (emitRow wall z x cs).length = cs.length + cs.count wall := by
  induction cs generalizing x with
  | nil => rfl
  | cons c cs ih =>
    by_cases hc : c = wall <;>
      simp [emitRow, hc, ih (x + 1), List.count_cons] <;> omega

lemma fromMapAux_length (wall : Char) (rows : List String) (z : Nat) :
    (fromMapAux wall z rows).length =
      (rows.map (fun s => s.data.length)).sum +
        (rows.map (fun s => s.data.count wall)).sum := by
  induction rows generalizing z with
  | nil => rfl
  | cons r rest ih =>
    simp [fromMapAux, emitRow_length, ih (z + 1)]
    omega

/-- C3 (confirmed): the map generator emits, per character cell, the floor
point `(x, -1, z)` with 1-based x, plus the wall point `(x, 0, z)` exactly
when the character equals the wall marker, and nothing else: the output
length is the number of cells plus the number of wall-marker cells, and a
point is in the output iff it is the floor point of some cell or the wall
point of some wall-marker cell. -/
theorem from_map_cells (rows : List String) (wall : Char) :
    (from_map rows wall).length =
      (rows.map (fun s => s.data.length)).sum +
        (rows.map (fun s => s.data.count wall)).sum ∧
      ∀ p : PointI32, p ∈ from_map rows wall ↔
        ∃ zl ∈ rows.enum, ∃ ic ∈ zl.2.data.enum,
          p = PointI32.new ((ic.1 : Int) + 1) (-1) (zl.1 : Int) ∨
            (ic.2 = wall ∧ p = PointI32.new ((ic.1 : Int) + 1) 0 (zl.1 : Int)) := by
  constructor
  · exact fromMapAux_length wall rows 0
  · intro p
    rw [from_map_eq_rowMajor]
    simp only [mapPointsRowMajor, List.mem_flatMap, cellPoints, List.mem_append,
      List.mem_singleton]
    constructor
    · rintro ⟨zl, hzl, ic, hic, hp⟩
      refine ⟨zl, hzl, ic, hic, ?_⟩
      by_cases hc : ic.2 = wall
      · simp [hc] at hp
        tauto
      · simp [hc] at hp
        tauto
    · rintro ⟨zl, hzl, ic, hic, hp⟩
      refine ⟨zl, hzl, ic, hic, ?_⟩
      rcases hp with hp | ⟨hc, hp⟩
      · simp [hp]
      · simp [hc, hp]

/-! ## Sharp cuboid (edge radius zero) corner positions -/

/-- The eight corners of the axis-aligned box of a `SoftBox`. -/
def boxCorners (sp : SoftBox) : List (ℚ × ℚ × ℚ) :=
  [ (sp.min_x, sp.min_y, sp.min_z), (sp.max_x, sp.min_y, sp.min_z),
    (sp.min_x, sp.max_y, sp.min_z), (sp.max_x, sp.max_y, sp.min_z),
    (sp.min_x, sp.min_y, sp.max_z), (sp.max_x, sp.min_y, sp.max_z),
    (sp.min_x, sp.max_y, sp.max_z), (sp.max_x, sp.max_y, sp.max_z) ]

/-- C5 (corrected, amended with nondegeneracy): with edge radius zero and
distinct extremes on every axis, the positions of the built vertex buffer
form exactly the set of the eight box corners, and every corner occurs as
exactly three coincident vertices. -/
theorem softBox_sharp_corners (sp : SoftBox) (h0 : sp.edge_radius = 0)
    (hx : sp.min_x ≠ sp.max_x) (hy : sp.min_y ≠ sp.max_y) (hz : sp.min_z ≠ sp.max_z) :
    (∀ p, p ∈ softBoxPositions sp ↔ p ∈ boxCorners sp) ∧
      List.Forall (fun c => (softBoxPositions sp).count c = 3) (boxCorners sp) := by
  obtain ⟨a, b, c, d, e, f, r⟩ := sp
  simp only [SoftBox.edge_radius] at h0
  simp only [SoftBox.min_x, SoftBox.max_x] at hx
  simp only [SoftBox.min_y, SoftBox.max_y] at hy
  simp only [SoftBox.min_z, SoftBox.max_z] at hz
  subst h0
  have hx2 := hx.symm
  have hy2 := hy.symm
  have hz2 := hz.symm
  constructor
  · intro p
    simp [softBoxPositions, softBoxVertices, boxCorners]
    tauto
  · simp [softBoxPositions, softBoxVertices, boxCorners, List.Forall, List.count_cons,
      beq_iff_eq, Prod.ext_iff, hx, hy, hz, hx2, hy2, hz2]

/-- Witness for C5 at the concrete sharp box `[-1,1]×[-2,2]×[-3,3]` with
edge radius zero. -/
theorem softBox_sharp_corners_witness :
    (SoftBox.mk (-1) 1 (-2) 2 (-3) 3 0).edge_radius = 0 ∧
      ((∀ p, p ∈ softBoxPositions (SoftBox.mk (-1) 1 (-2) 2 (-3) 3 0) ↔
          p ∈ boxCorners (SoftBox.mk (-1) 1 (-2) 2 (-3) 3 0)) ∧
        List.Forall
          (fun c => (softBoxPositions (SoftBox.mk (-1) 1 (-2) 2 (-3) 3 0)).count c = 3)
          (boxCorners (SoftBox.mk (-1) 1 (-2) 2 (-3) 3 0))) :=
  ⟨rfl, softBox_sharp_corners (SoftBox.mk (-1) 1 (-2) 2 (-3) 3 0) rfl
    (by decide) (by decide) (by decide)⟩

/-- C5 counterexample: for the fully degenerate box with all extremes zero
and edge radius zero, the corner `(0,0,0)` occurs as all 24 vertices rather
than as three coincident vertices, so the unrestricted claim fails. -/
theorem softBox_sharp_corners_cex :
    (SoftBox.mk 0 0 0 0 0 0 0).edge_radius = 0 ∧
      ((0 : ℚ), (0 : ℚ), (0 : ℚ)) ∈ boxCorners (SoftBox.mk 0 0 0 0 0 0 0) ∧
      (softBoxPositions (SoftBox.mk 0 0 0 0 0 0 0)).count ((0 : ℚ), (0 : ℚ), (0 : ℚ)) = 24 ∧
      (softBoxPositions (SoftBox.mk 0 0 0 0 0 0 0)).count ((0 : ℚ), (0 : ℚ), (0 : ℚ)) ≠ 3 := by
  have h : (softBoxPositions (SoftBox.mk 0 0 0 0 0 0 0)).count ((0 : ℚ), (0 : ℚ), (0 : ℚ)) = 24 := by
    norm_num [softBoxPositions, softBoxVertices, List.count_cons]
  refine ⟨rfl, by decide, h, ?_⟩
  rw [h]
  norm_num
